import Mathlib

/-!
Shallow embedding of the F1 dashboard backend
(`src/backend/src/services/f1_service.py`,
`src/backend/src/websocket/websocket_handler.py`, `src/backend/main.py`).

Modelling conventions:
* Upstream records (Python dicts) become the structure `F1.Rec` whose fields
  are all optional, mirroring `dict.get`.
* Timestamps are natural numbers (seconds); durations coming from the upstream
  API (floats in seconds) are modelled at millisecond precision as integers,
  so `91.234` seconds is the integer `91234`.  At this precision Python's
  `f"{x:.3f}"` / `f"{x:06.3f}"` renderings are exact and are reproduced
  digit for digit.
* Network effects are passed in explicitly: `_make_request` takes the
  upstream's response as an argument and returns, besides its data, the new
  service state and whether an upstream request was issued.
-/

namespace F1

/-- One upstream record: a Python dict with the (optional) fields the
backend reads.  A missing key is `none`; `dict.get(k, d)` is `(·.k).getD d`.
Durations are integer milliseconds, dates are ISO strings compared
lexicographically (as Python compares the `date` strings). -/
structure Rec where
  driver_number : Option Int := none
  date : Option String := none
  position : Option Int := none
  lap_number : Option Int := none
  lap_duration : Option Int := none
  duration_sector_1 : Option Int := none
  duration_sector_2 : Option Int := none
  duration_sector_3 : Option Int := none
  gap_to_leader : Option Int := none
  interval : Option Int := none
  stint_number : Option Int := none
  compound : Option String := none
  lap_start : Option Int := none
  tyre_age_at_start : Option Int := none
deriving DecidableEq, Repr

/-- Zero-pad a natural number to two digits (Python `{:02d}` part of
`{:06.3f}`). -/
def pad2 (n : Nat) : String :=
  if n < 10 then "0" ++ toString n else toString n

/-- Zero-pad a natural number to three digits (the `.mmm` part of a
3-decimal float rendering). -/
def pad3 (n : Nat) : String :=
  if n < 10 then "00" ++ toString n
  else if n < 100 then "0" ++ toString n
  else toString n

/-- Python `f"{x:.3f}"` on a millisecond-precision value, sign included. -/
def signed_ms (ms : Int) : String :=
  (if ms < 0 then "-" else "") ++ toString (ms.natAbs / 1000) ++ "." ++ pad3 (ms.natAbs % 1000)

/-- Model of `F1Service._format_lap_time` (f1_service.py lines 375-382):
`None`, zero or negative renders the sentinel, otherwise
`f"{int(seconds // 60)}:{seconds % 60:06.3f}"`. -/
def format_lap_time (seconds : Option Int) : String :=
  match seconds with
  | none => "--:--.---"
  | some ms =>
    if ms ≤ 0 then "--:--.---"
    else
      let n := ms.toNat
      toString (n / 60000) ++ ":" ++ pad2 (n % 60000 / 1000) ++ "." ++ pad3 (n % 1000)

/-- Model of `F1Service._format_sector_time` (lines 384-388): `None`, zero or
negative renders the sentinel, otherwise `f"{seconds:.3f}"`. -/
def format_sector_time (seconds : Option Int) : String :=
  match seconds with
  | none => "---.---"
  | some ms =>
    if ms ≤ 0 then "---.---"
    else toString (ms.toNat / 1000) ++ "." ++ pad3 (ms.toNat % 1000)

/-- Model of `F1Service._format_gap` (lines 390-400): `if not gap: return '--'`
catches only `None` and `0`; any other value below 60 seconds (negative
included) renders `f"+{gap:.3f}"`; values of at least 60 seconds render
`f"+{int(gap // 60)}:{gap % 60:06.3f}"`. -/
def format_gap (gap : Option Int) : String :=
  match gap with
  | none => "--"
  | some g =>
    if g = 0 then "--"
    else if g < 60000 then "+" ++ signed_ms g
    else
      let n := g.toNat
      "+" ++ toString (n / 60000) ++ ":" ++ pad2 (n % 60000 / 1000) ++ "." ++ pad3 (n % 1000)

/-- Model of `F1Service._calculate_tyre_age` (lines 402-411): with both
arguments present it returns
`lap.get('lap_number', 0) - stint.get('lap_start', 0) + stint.get('tyre_age_at_start', 0)`,
with no clamping; a missing argument yields 0. -/
def calculate_tyre_age (stint latest_lap : Option Rec) : Int :=
  match stint, latest_lap with
  | some s, some l =>
    (l.lap_number.getD 0) - (s.lap_start.getD 0) + (s.tyre_age_at_start.getD 0)
  | _, _ => 0

/-! Association-list model of Python dicts (preserving insertion order for
new keys, replacing in place for existing keys, as CPython does). -/

/-- Python `d.get(k)` / `k in d` on an association list. -/
def dictGet {κ β : Type} [DecidableEq κ] (k : κ) : List (κ × β) → Option β
  | [] => none
  | (k₁, v) :: rest => if k₁ = k then some v else dictGet k rest

/-- Python `d[k] = v`: replace the existing entry in place, or append. -/
def dictSet {κ β : Type} [DecidableEq κ] (k : κ) (v : β) : List (κ × β) → List (κ × β)
  | [] => [(k, v)]
  | (k₁, v₁) :: rest =>
    if k₁ = k then (k, v) :: rest else (k₁, v₁) :: dictSet k v rest

/-- Python `del d[k]`: drop the (unique, when keys are distinct) entry. -/
def delKey {κ β : Type} [DecidableEq κ] (k : κ) : List (κ × β) → List (κ × β)
  | [] => []
  | (k₁, v₁) :: rest => if k₁ = k then rest else (k₁, v₁) :: delKey k rest

/-- Keys of an association list, in order. -/
def keys {κ β : Type} (d : List (κ × β)) : List κ := d.map Prod.fst

/-! Upstream client and cache (`F1Service`). -/

/-- One cache entry: `self.cache[key] = {'data': ..., 'timestamp': ...}`
(f1_service.py lines 92-95). -/
structure CacheEntry where
  data : List Rec
  timestamp : Nat
deriving DecidableEq, Repr

/-- Mutable state of `F1Service`: the cache plus the rate-limit /
consecutive-failure health counters (lines 19-29). -/
structure F1State where
  cache : List (String × CacheEntry) := []
  rate_limited_until : Nat := 0
  consecutive_failures : Nat := 0
deriving DecidableEq, Repr

/-- `self.cache_ttl = 30` (line 20), in seconds. -/
def cache_ttl : Nat := 30

/-- Sort a parameter list by key, ascending and stable: the `sort_keys=True`
canonicalization in `json.dumps(params or \x7b\x7d, sort_keys=True)`. -/
def insertParam (p : String × String) : List (String × String) → List (String × String)
  | [] => [p]
  | q :: rest => if p.1 ≤ q.1 then p :: q :: rest else q :: insertParam p rest

/-- Canonicalize parameters by sorting on the key. -/
def canonParams : List (String × String) → List (String × String)
  | [] => []
  | p :: rest => insertParam p (canonParams rest)

/-- Render a canonicalized parameter list the way `json.dumps` renders a
string-valued dict. -/
def dumpParams (ps : List (String × String)) : String :=
  "\x7b" ++ String.intercalate ", "
    (ps.map (fun p => "\x22" ++ p.1 ++ "\x22: \x22" ++ p.2 ++ "\x22")) ++ "\x7d"

/-- Model of the cache key (line 62):
`f"{endpoint}_{json.dumps(params or \x7b\x7d, sort_keys=True)}"`. -/
def cache_key (endpoint : String) (params : List (String × String)) : String :=
  endpoint ++ "_" ++ dumpParams (canonParams params)

/-- Outcome of one upstream HTTP attempt, as `_make_request` distinguishes
them: HTTP 200 with a JSON body, HTTP 429 with an optional integer
`Retry-After` header, any other status, a timeout, or any other raised
exception (lines 86-138). -/
inductive UpstreamResponse where
  | ok (data : List Rec)
  | rateLimited (retryAfter : Option Nat)
  | httpError (status : Nat)
  | timeout
  | transportError
deriving DecidableEq, Repr

/-- The fallback value used on every failure path: the cached data under the
key when present, else the empty list. -/
def cachedData (cache : List (String × CacheEntry)) (key : String) : List Rec :=
  match dictGet key cache with
  | some e => e.data
  | none => []

/-- Model of `F1Service._make_request` (lines 56-138).  `now` is the current
time in seconds and `resp` the upstream's behaviour if a request is issued.
Returns the data handed to the caller, the new service state, and whether an
upstream request was issued.  The Python function is one `try/except` whose
every branch `return`s, so it never raises to the caller; correspondingly
this model is a total function. -/
def make_request (st : F1State) (now : Nat) (endpoint : String)
    (params : List (String × String)) (resp : UpstreamResponse) :
    List Rec × F1State × Bool :=
  let key := cache_key endpoint params
  let hit : Option (List Rec) :=
    match dictGet key st.cache with
    | some entry => if now - entry.timestamp < cache_ttl then some entry.data else none
    | none => none
  match hit with
  | some data => (data, st, false)
  | none =>
    match resp with
    | .ok data =>
      (data,
       { st with cache := dictSet key ⟨data, now⟩ st.cache, consecutive_failures := 0 },
       true)
    | .rateLimited retryAfter =>
      (cachedData st.cache key,
       { st with rate_limited_until := now + retryAfter.getD 60,
                 consecutive_failures := st.consecutive_failures + 1 },
       true)
    | .httpError _ =>
      (cachedData st.cache key,
       { st with consecutive_failures := st.consecutive_failures + 1 },
       true)
    | .timeout =>
      (cachedData st.cache key,
       { st with consecutive_failures := st.consecutive_failures + 1 },
       true)
    | .transportError =>
      (cachedData st.cache key,
       { st with consecutive_failures := st.consecutive_failures + 1 },
       true)

/-- A response that is not HTTP 200. -/
def UpstreamResponse.isFailure : UpstreamResponse → Bool
  | .ok _ => false
  | _ => true

/-! Stable sorting, modelling Python's `sorted` (Timsort is stable; a stable
sort is determined by its comparison, so stable insertion sort is an exact
model on every input). -/

/-- Insert into a list sorted descending by `k`, keeping the inserted element
before elements of equal key: one step of a stable descending sort. -/
def insertDesc {α κ : Type} [LinearOrder κ] (k : α → κ) (x : α) : List α → List α
  | [] => [x]
  | y :: ys => if k x < k y then y :: insertDesc k x ys else x :: y :: ys

/-- Model of Python `sorted(l, key=k, reverse=True)`: stable descending. -/
def sortDesc {α κ : Type} [LinearOrder κ] (k : α → κ) : List α → List α
  | [] => []
  | x :: xs => insertDesc k x (sortDesc k xs)

/-- Insert into a list sorted ascending by `k`, keeping the inserted element
before elements of equal key: one step of a stable ascending sort. -/
def insertAsc {α κ : Type} [LinearOrder κ] (k : α → κ) (x : α) : List α → List α
  | [] => [x]
  | y :: ys => if k x ≤ k y then x :: y :: ys else y :: insertAsc k x ys

/-- Model of Python `l.sort(key=k)`: stable ascending. -/
def sortAsc {α κ : Type} [LinearOrder κ] (k : α → κ) : List α → List α
  | [] => []
  | x :: xs => insertAsc k x (sortAsc k xs)

/-- The first element of maximal key, in source order: the specification-side
description of what "latest record, ties broken by stable source order"
selects. -/
def argmaxFirst {α κ : Type} [LinearOrder κ] (k : α → κ) : List α → Option α
  | [] => none
  | x :: xs =>
    match argmaxFirst k xs with
    | none => some x
    | some m => if k x < k m then some m else some x

/-! Timing aggregator (`F1Service.get_live_timing_data`, lines 248-330). -/

/-- Sort key `x.get('date', '')` used for positions and intervals. -/
def dateKey (r : Rec) : String := r.date.getD ""

/-- Sort key `x.get('lap_number', 0)` used for laps. -/
def lapNumberKey (r : Rec) : Int := r.lap_number.getD 0

/-- Sort key `x.get('stint_number', 0)` used for stints. -/
def stintNumberKey (r : Rec) : Int := r.stint_number.getD 0

/-- The selection pattern of lines 277-299:
`next((r for r in sorted(records, key=k, reverse=True) if r.get('driver_number') == dn), None)`. -/
def latestBy {κ : Type} [LinearOrder κ] (k : Rec → κ) (records : List Rec)
    (dn : Option Int) : Option Rec :=
  (sortDesc k records).find? (fun r => r.driver_number == dn)

/-- One element of `driverTimings` (lines 303-316).  Fields that Python may
set to `None` are `Option`s; `lastLap` and `tyreCompound` are `Option`s whose
fallback branches produce `some 0` / `some "UNKNOWN"` just as the Python
`x if cond else default` expressions do. -/
structure DriverTiming where
  driver : Rec
  position : Option Int
  lapTime : String
  sector1 : String
  sector2 : String
  sector3 : String
  gap : String
  interval : String
  lastLap : Option Int
  tyreCompound : Option String
  tyreAge : Int
  pitStops : Nat
deriving DecidableEq, Repr

/-- The per-driver snapshot computation: the body of the
`for driver in drivers` loop (lines 274-316). -/
def mkDriverTiming (driver : Rec) (positions laps intervals stints pit_data : List Rec) :
    DriverTiming :=
  let dn := driver.driver_number
  let latest_position := latestBy dateKey positions dn
  let latest_lap := latestBy lapNumberKey laps dn
  let latest_interval := latestBy dateKey intervals dn
  let current_stint := latestBy stintNumberKey stints dn
  { driver := driver
    position := latest_position.bind Rec.position
    lapTime :=
      match latest_lap with
      | some l => format_lap_time l.lap_duration
      | none => "--:--.---"
    sector1 :=
      match latest_lap with
      | some l => format_sector_time l.duration_sector_1
      | none => "---.---"
    sector2 :=
      match latest_lap with
      | some l => format_sector_time l.duration_sector_2
      | none => "---.---"
    sector3 :=
      match latest_lap with
      | some l => format_sector_time l.duration_sector_3
      | none => "---.---"
    gap :=
      match latest_interval with
      | some i => format_gap i.gap_to_leader
      | none => "--"
    interval :=
      match latest_interval with
      | some i => format_gap i.interval
      | none => "--"
    lastLap :=
      match latest_lap with
      | some l => l.lap_number
      | none => some 0
    tyreCompound :=
      match current_stint with
      | some s => s.compound
      | none => some "UNKNOWN"
    tyreAge := calculate_tyre_age current_stint latest_lap
    pitStops := (pit_data.filter (fun p => p.driver_number == dn)).length }

/-- Final ordering key (line 320): `x.get('position') or 999`, where Python's
`or` sends both `None` and `0` to 999. -/
def posSortKey (t : DriverTiming) : Int :=
  match t.position with
  | none => 999
  | some p => if p = 0 then 999 else p

/-- Result of `get_live_timing_data`.  The success dict has no `error` key
(`error = none`); the short-circuit dict has no `sessionKey`.  The wall-clock
`lastUpdate` field is omitted from the model. -/
structure TimingResult where
  driverTimings : List DriverTiming
  error : Option String := none
  sessionKey : Option String := none
deriving DecidableEq, Repr

/-- Model of `F1Service.get_live_timing_data` (lines 248-330), taking the six
already-fetched record sets as inputs.  If the drivers list is empty it
short-circuits with the `'No drivers found'` error and performs no per-driver
computation. -/
def get_live_timing_data (session_key : String)
    (drivers positions laps intervals stints pit_data : List Rec) : TimingResult :=
  if drivers.isEmpty then
    { driverTimings := [], error := some "No drivers found" }
  else
    { driverTimings :=
        sortAsc posSortKey
          (drivers.map (fun d => mkDriverTiming d positions laps intervals stints pit_data))
      error := none
      sessionKey := some session_key }

/-! Broadcast manager (`WebSocketManager`, websocket_handler.py). -/

/-- A connection identity (the Python `WebSocket` object). -/
abbrev WS := Nat

/-- Per-connection data (lines 22-25). -/
structure ConnData where
  connected_at : Nat := 0
  subscriptions : List String := []
deriving DecidableEq, Repr

/-- State of `WebSocketManager` (lines 14-16). -/
structure WSState where
  active_connections : List WS := []
  connection_data : List (WS × ConnData) := []
deriving DecidableEq, Repr

/-- Model of `WebSocketManager.connect` (lines 18-26): append to
`active_connections`, create the per-connection entry. -/
def connect (st : WSState) (ws : WS) (now : Nat) : WSState :=
  { active_connections := st.active_connections ++ [ws]
    connection_data :=
      dictSet ws { connected_at := now, subscriptions := [] } st.connection_data }

/-- Model of `WebSocketManager.disconnect` (lines 28-34): remove the first
occurrence from `active_connections` if present, delete the data entry if
present; both guarded, so it is safe on unknown sockets. -/
def disconnect (st : WSState) (ws : WS) : WSState :=
  { active_connections :=
      if ws ∈ st.active_connections then st.active_connections.erase ws
      else st.active_connections
    connection_data :=
      if (dictGet ws st.connection_data).isSome then delKey ws st.connection_data
      else st.connection_data }

/-- Model of `WebSocketManager._send_safe` (lines 66-72): `fails ws` says
whether `send_text` raises for this connection; on failure the connection is
disconnected, otherwise the state is untouched and the message delivered. -/
def send_safe (st : WSState) (fails : WS → Bool) (ws : WS) : WSState :=
  if fails ws then disconnect st ws else st

/-- Model of `WebSocketManager.broadcast` (lines 53-64): snapshot the
connection list (`self.active_connections.copy()`), run `_send_safe` for each
element of the snapshot.  Returns the final state, the list of connections a
send was attempted to, and the list of connections the message was actually
delivered to. -/
def broadcast (st : WSState) (fails : WS → Bool) : WSState × List WS × List WS :=
  if st.active_connections.isEmpty then (st, [], [])
  else
    st.active_connections.foldl
      (fun acc ws =>
        (send_safe acc.1 fails ws,
         acc.2.1 ++ [ws],
         acc.2.2 ++ if fails ws then [] else [ws]))
      (st, [], [])

/-- Python `set.update`, with the iteration-order nondeterminism of `set`
resolved to first-seen order (the subscription invariants proved below do not
depend on the order). -/
def setUnion (cur add : List String) : List String :=
  add.foldl (fun acc t => if t ∈ acc then acc else acc ++ [t]) cur

/-- Python `set.difference_update`. -/
def setDiff (cur remove : List String) : List String :=
  cur.filter (fun t => t ∉ remove)

/-- Model of `WebSocketManager.update_subscription` (lines 97-111): no-op for
an unknown socket, otherwise rewrite that connection's subscription list. -/
def update_subscription (st : WSState) (ws : WS) (data_types : List String)
    (action : String) : WSState :=
  match dictGet ws st.connection_data with
  | none => st
  | some info =>
    let updated :=
      if action = "subscribe" then setUnion info.subscriptions data_types
      else if action = "unsubscribe" then setDiff info.subscriptions data_types
      else info.subscriptions
    { st with
      connection_data :=
        dictSet ws { info with subscriptions := updated } st.connection_data }

/-- Model of `WebSocketManager.has_connections` (lines 89-91). -/
def has_connections (st : WSState) : Bool :=
  decide (0 < st.active_connections.length)

/-- Model of `WebSocketManager.connection_count` (lines 93-95). -/
def connection_count (st : WSState) : Nat :=
  st.active_connections.length

/-! Streaming scheduler (`data_streaming_loop`, main.py lines 77-149). -/

/-- Environment of one iteration of the streaming loop: the broadcast
manager's state, what `get_current_session` would find, the health snapshot,
and the record sets the three fetches would produce. -/
structure LoopInput where
  manager : WSState := {}
  session : Option Rec := none
  rate_limited : Bool := false
  consecutive_failures : Nat := 0
  positions : List Rec := []
  intervals : List Rec := []
  locations : List Rec := []
deriving Repr

/-- One iteration of `data_streaming_loop` (lines 79-149): returns the list
of fetch-layer calls issued (by endpoint name), the list of envelope types
broadcast, and the seconds slept before the next iteration.  With no
registered connection the body skips straight to the 30-second sleep. -/
def loop_iteration (i : LoopInput) : List String × List String × Nat :=
  if has_connections i.manager then
    match i.session with
    | some _ =>
      if i.rate_limited then (["sessions"], [], 60)
      else if i.consecutive_failures > 5 then (["sessions"], [], 120)
      else
        (["sessions", "position", "intervals", "location"],
         (if i.positions.isEmpty then [] else ["POSITION"]) ++
           (if i.intervals.isEmpty then [] else ["INTERVAL"]) ++
           (if i.locations.isEmpty then [] else ["LOCATION"]),
         2 + 2 + 30)
    | none => (["sessions"], [], 30)
  else ([], [], 30)

/-- The fetch calls issued over a window of successive loop iterations. -/
def run_loop (inputs : List LoopInput) : List String :=
  (inputs.map (fun i => (loop_iteration i).1)).flatten

/-- Sorted in weakly descending key order. -/
def SortedDescBy {α κ : Type} [LinearOrder κ] (k : α → κ) (l : List α) : Prop :=
  l.Pairwise (fun a b => k b ≤ k a)

/-- Invariant of the `WebSocketManager` registry: `active_connections` and the
key set of `connection_data` have the same members, and neither holds
duplicates. -/
def WSInv (st : WSState) : Prop :=
  (∀ w : WS, w ∈ st.active_connections ↔ (dictGet w st.connection_data).isSome) ∧
  st.active_connections.Nodup ∧ (keys st.connection_data).Nodup

/-! Lemmas about the dict model. -/

theorem dictGet_dictSet_self {κ β : Type} [DecidableEq κ] (k : κ) (v : β)
    (d : List (κ × β)) : dictGet k (dictSet k v d) = some v := by
  induction d with
  | nil => simp [dictGet, dictSet]
  | cons p rest ih =>
    obtain ⟨k₁, v₁⟩ := p
    by_cases h : k₁ = k
    · simp [dictGet, dictSet, h]
    · simp [dictGet, dictSet, h, ih]

theorem dictGet_dictSet_ne {κ β : Type} [DecidableEq κ] {k₁ k : κ} (h : k₁ ≠ k)
    (v : β) (d : List (κ × β)) : dictGet k₁ (dictSet k v d) = dictGet k₁ d := by
  have h' : k ≠ k₁ := Ne.symm h
  induction d with
  | nil => simp [dictGet, dictSet, h']
  | cons p rest ih =>
    obtain ⟨k₂, v₂⟩ := p
    by_cases h₂ : k₂ = k
    · subst h₂
      simp [dictGet, dictSet, h']
    · simp [dictGet, dictSet, h₂, ih]

theorem keys_cons {κ β : Type} (k₁ : κ) (v₁ : β) (rest : List (κ × β)) :
    keys ((k₁, v₁) :: rest) = k₁ :: keys rest := rfl

theorem mem_keys_iff_isSome {κ β : Type} [DecidableEq κ] (w : κ) (d : List (κ × β)) :
    w ∈ keys d ↔ (dictGet w d).isSome := by
  induction d with
  | nil => simp [keys, dictGet]
  | cons p rest ih =>
    obtain ⟨k₁, v₁⟩ := p
    rw [keys_cons, List.mem_cons]
    by_cases h : k₁ = w
    · simp [dictGet, h]
    · simp [dictGet, h, Ne.symm h, ih]

theorem keys_dictSet_mem {κ β : Type} [DecidableEq κ] {k : κ} (v : β)
    {d : List (κ × β)} (h : k ∈ keys d) : keys (dictSet k v d) = keys d := by
  induction d with
  | nil => simp [keys] at h
  | cons p rest ih =>
    obtain ⟨k₁, v₁⟩ := p
    by_cases h₁ : k₁ = k
    · subst h₁
      simp [dictSet, keys_cons]
    · rw [keys_cons, List.mem_cons] at h
      have hr : k ∈ keys rest := h.resolve_left (fun hh => h₁ hh.symm)
      simp [dictSet, h₁, keys_cons, ih hr]

theorem keys_dictSet_not_mem {κ β : Type} [DecidableEq κ] {k : κ} (v : β)
    {d : List (κ × β)} (h : k ∉ keys d) : keys (dictSet k v d) = keys d ++ [k] := by
  induction d with
  | nil => simp [keys, dictSet]
  | cons p rest ih =>
    obtain ⟨k₁, v₁⟩ := p
    rw [keys_cons, List.mem_cons] at h
    push_neg at h
    have h1 : ¬ k₁ = k := fun hh => h.1 hh.symm
    simp [dictSet, h1, keys_cons, ih h.2]

theorem keys_delKey {κ β : Type} [DecidableEq κ] (k : κ) (d : List (κ × β)) :
    keys (delKey k d) = (keys d).erase k := by
  induction d with
  | nil => simp [keys, delKey]
  | cons p rest ih =>
    obtain ⟨k₁, v₁⟩ := p
    by_cases h : k₁ = k
    · subst h
      simp [keys_cons, delKey]
    · rw [keys_cons, delKey]
      simp only [if_neg h]
      rw [keys_cons, ih, List.erase_cons_tail]
      simp [h]

theorem dictGet_delKey_ne {κ β : Type} [DecidableEq κ] {k₁ k : κ} (h : k₁ ≠ k)
    (d : List (κ × β)) : dictGet k₁ (delKey k d) = dictGet k₁ d := by
  induction d with
  | nil => simp [delKey]
  | cons p rest ih =>
    obtain ⟨k₂, v₂⟩ := p
    by_cases h₂ : k₂ = k
    · subst h₂
      simp [dictGet, delKey, Ne.symm h]
    · simp [dictGet, delKey, h₂, ih]

theorem dictGet_delKey_self {κ β : Type} [DecidableEq κ] (k : κ) (d : List (κ × β))
    (hnd : (keys d).Nodup) : dictGet k (delKey k d) = none := by
  induction d with
  | nil => simp [delKey, dictGet]
  | cons p rest ih =>
    obtain ⟨k₁, v₁⟩ := p
    rw [keys_cons, List.nodup_cons] at hnd
    by_cases h : k₁ = k
    · subst h
      have hdel : delKey k₁ ((k₁, v₁) :: rest) = rest := by simp [delKey]
      rw [hdel]
      cases hg : dictGet k₁ rest with
      | none => rfl
      | some v =>
        exact absurd ((mem_keys_iff_isSome k₁ rest).mpr (by simp [hg])) hnd.1
    · simp [delKey, dictGet, h, ih hnd.2]

theorem delKey_of_not_mem {κ β : Type} [DecidableEq κ] {k : κ} {d : List (κ × β)}
    (h : k ∉ keys d) : delKey k d = d := by
  induction d with
  | nil => simp [delKey]
  | cons p rest ih =>
    obtain ⟨k₁, v₁⟩ := p
    rw [keys_cons, List.mem_cons] at h
    push_neg at h
    have h1 : ¬ k₁ = k := fun hh => h.1 hh.symm
    simp [delKey, h1, ih h.2]

/-! Lemmas about the stable descending sort and first-maximum selection. -/

theorem mem_insertDesc {α κ : Type} [LinearOrder κ] (k : α → κ) (x z : α)
    (l : List α) : z ∈ insertDesc k x l ↔ z = x ∨ z ∈ l := by
  induction l with
  | nil => simp [insertDesc]
  | cons y ys ih =>
    by_cases h : k x < k y
    · simp only [insertDesc, if_pos h, List.mem_cons, ih]
      tauto
    · simp only [insertDesc, if_neg h, List.mem_cons]

theorem sortedDescBy_insertDesc {α κ : Type} [LinearOrder κ] {k : α → κ} (x : α)
    {l : List α} (h : SortedDescBy k l) : SortedDescBy k (insertDesc k x l) := by
  induction l with
  | nil => simp [insertDesc, SortedDescBy]
  | cons y ys ih =>
    rw [SortedDescBy, List.pairwise_cons] at h
    by_cases hxy : k x < k y
    · rw [show insertDesc k x (y :: ys) = y :: insertDesc k x ys by
        simp [insertDesc, hxy]]
      rw [SortedDescBy, List.pairwise_cons]
      refine ⟨?_, ih h.2⟩
      intro b hb
      rcases (mem_insertDesc k x b ys).mp hb with rfl | hb'
      · exact le_of_lt hxy
      · exact h.1 b hb'
    · rw [show insertDesc k x (y :: ys) = x :: y :: ys by simp [insertDesc, hxy]]
      rw [SortedDescBy, List.pairwise_cons]
      refine ⟨?_, List.pairwise_cons.mpr h⟩
      intro b hb
      rcases List.mem_cons.mp hb with rfl | hb'
      · exact le_of_not_lt hxy
      · exact (h.1 b hb').trans (le_of_not_lt hxy)

theorem sortedDescBy_sortDesc {α κ : Type} [LinearOrder κ] (k : α → κ)
    (l : List α) : SortedDescBy k (sortDesc k l) := by
  induction l with
  | nil => simp [sortDesc, SortedDescBy]
  | cons x xs ih => exact sortedDescBy_insertDesc x ih

theorem find?_insertDesc_none {α κ : Type} [LinearOrder κ] {k : α → κ}
    {p : α → Bool} (x : α) {s : List α} (hf : s.find? p = none) :
    (insertDesc k x s).find? p = if p x then some x else none := by
  induction s with
  | nil => cases hp : p x <;> simp [insertDesc, List.find?, hp]
  | cons y ys ih =>
    rw [List.find?_cons] at hf
    cases hpy : p y with
    | true => simp [hpy] at hf
    | false =>
      rw [hpy] at hf
      simp only [] at hf
      by_cases hxy : k x < k y
      · rw [show insertDesc k x (y :: ys) = y :: insertDesc k x ys by
          simp [insertDesc, hxy]]
        rw [List.find?_cons, hpy]
        exact ih hf
      · rw [show insertDesc k x (y :: ys) = x :: y :: ys by simp [insertDesc, hxy]]
        cases hpx : p x <;> simp [List.find?_cons, hpx, hpy, hf]

theorem find?_insertDesc_some {α κ : Type} [LinearOrder κ] {k : α → κ}
    {p : α → Bool} (x : α) {s : List α} {m : α} (hs : SortedDescBy k s)
    (hf : s.find? p = some m) :
    (insertDesc k x s).find? p =
      if p x = true ∧ k m ≤ k x then some x else some m := by
  induction s with
  | nil => simp [List.find?] at hf
  | cons y ys ih =>
    rw [SortedDescBy, List.pairwise_cons] at hs
    by_cases hxy : k x < k y
    · rw [show insertDesc k x (y :: ys) = y :: insertDesc k x ys by
        simp [insertDesc, hxy]]
      rw [List.find?_cons] at hf ⊢
      cases hpy : p y with
      | true =>
        rw [hpy] at hf
        simp only [Option.some.injEq] at hf
        subst hf
        have hcond : ¬ (p x = true ∧ k y ≤ k x) := by
          rintro ⟨-, hle⟩
          exact absurd hxy (not_lt.mpr hle)
        simp [hcond]
      | false =>
        rw [hpy] at hf
        simp only [] at hf
        exact ih hs.2 hf
    · have hyx : k y ≤ k x := le_of_not_lt hxy
      rw [show insertDesc k x (y :: ys) = x :: y :: ys by simp [insertDesc, hxy]]
      cases hpx : p x with
      | true =>
        have hm : m ∈ y :: ys := List.mem_of_find?_eq_some hf
        have hmx : k m ≤ k x := by
          rcases List.mem_cons.mp hm with rfl | hm'
          · exact hyx
          · exact (hs.1 m hm').trans hyx
        simp [List.find?_cons, hpx, hmx]
      | false =>
        simp [List.find?_cons, hpx, hf]

theorem find?_sortDesc {α κ : Type} [LinearOrder κ] (k : α → κ) (p : α → Bool)
    (l : List α) : (sortDesc k l).find? p = argmaxFirst k (l.filter p) := by
  induction l with
  | nil => simp [sortDesc, argmaxFirst, List.find?]
  | cons x xs ih =>
    rw [show sortDesc k (x :: xs) = insertDesc k x (sortDesc k xs) from rfl]
    cases hf : (sortDesc k xs).find? p with
    | none =>
      rw [find?_insertDesc_none x hf]
      rw [hf] at ih
      cases hpx : p x <;>
        simp [List.filter_cons, hpx, argmaxFirst, ← ih]
    | some m =>
      rw [find?_insertDesc_some x (sortedDescBy_sortDesc k xs) hf]
      rw [hf] at ih
      cases hpx : p x with
      | true =>
        simp only [List.filter_cons, hpx, if_pos, argmaxFirst, ← ih]
        rcases le_or_lt (k m) (k x) with hle | hlt
        · simp [hle, not_lt.mpr hle]
        · simp [not_le.mpr hlt, hlt]
      | false =>
        simp [List.filter_cons, hpx, ← ih]

/-! Helper lemmas about `make_request`. -/

theorem make_request_fresh_hit (st : F1State) (now : Nat) (endpoint : String)
    (params : List (String × String)) (resp : UpstreamResponse) (entry : CacheEntry)
    (h1 : dictGet (cache_key endpoint params) st.cache = some entry)
    (h2 : now - entry.timestamp < cache_ttl) :
    make_request st now endpoint params resp = (entry.data, st, false) := by
  simp [make_request, h1, h2]

theorem make_request_failure_data (st : F1State) (now : Nat) (endpoint : String)
    (params : List (String × String)) (resp : UpstreamResponse)
    (h : resp.isFailure = true) :
    (make_request st now endpoint params resp).1
      = cachedData st.cache (cache_key endpoint params) := by
  cases hget : dictGet (cache_key endpoint params) st.cache with
  | none =>
    cases resp with
    | ok data => simp [UpstreamResponse.isFailure] at h
    | rateLimited ra => simp [make_request, hget, cachedData]
    | httpError s => simp [make_request, hget, cachedData]
    | timeout => simp [make_request, hget, cachedData]
    | transportError => simp [make_request, hget, cachedData]
  | some entry =>
    by_cases hage : now - entry.timestamp < cache_ttl
    · simp [make_request, hget, hage, cachedData]
    · cases resp with
      | ok data => simp [UpstreamResponse.isFailure] at h
      | rateLimited ra => simp [make_request, hget, hage, cachedData]
      | httpError s => simp [make_request, hget, hage, cachedData]
      | timeout => simp [make_request, hget, hage, cachedData]
      | transportError => simp [make_request, hget, hage, cachedData]

/-- C1: `fetch` (`_make_request`) is a total function — no failure escapes to
the caller — and on every non-success outcome (429, other non-2xx status,
timeout, transport error) it returns the cached data stored under the exact
endpoint+params key, or the empty list when no cache entry exists for that
key. -/
theorem fetch_failure_returns_cached_or_empty (st : F1State) (now : Nat)
    (endpoint : String) (params : List (String × String)) (resp : UpstreamResponse)
    (h : resp.isFailure = true) :
    (make_request st now endpoint params resp).1
      = cachedData st.cache (cache_key endpoint params) :=
  make_request_failure_data st now endpoint params resp h

/-- Witness for C1 at a concrete input: a timeout with an empty cache returns
the empty list. -/
theorem fetch_failure_returns_cached_or_empty_witness :
    (make_request ⟨[], 0, 0⟩ 5 "laps" [] UpstreamResponse.timeout).1 = [] :=
  (fetch_failure_returns_cached_or_empty ⟨[], 0, 0⟩ 5 "laps" []
    UpstreamResponse.timeout (by decide)).trans rfl

/-- C2: a fresh cache entry (age strictly below the TTL) is returned without
issuing an upstream request and without touching the state; consequently a
first call on an uncached key that succeeds upstream, followed by a second
call on the same key within the TTL, issues exactly one upstream request and
the second call returns the cached data; and a cache entry at or past the TTL
causes an upstream request to be issued. -/
theorem cache_single_request_within_ttl :
    (∀ (st : F1State) (now : Nat) (endpoint : String)
        (params : List (String × String)) (resp : UpstreamResponse)
        (entry : CacheEntry),
      dictGet (cache_key endpoint params) st.cache = some entry →
      now - entry.timestamp < cache_ttl →
      make_request st now endpoint params resp = (entry.data, st, false)) ∧
    (∀ (st : F1State) (t₁ t₂ : Nat) (endpoint : String)
        (params : List (String × String)) (data : List Rec)
        (resp : UpstreamResponse),
      dictGet (cache_key endpoint params) st.cache = none →
      t₂ - t₁ < cache_ttl →
      (make_request st t₁ endpoint params (.ok data)).2.2 = true ∧
      make_request (make_request st t₁ endpoint params (.ok data)).2.1 t₂
          endpoint params resp
        = (data, (make_request st t₁ endpoint params (.ok data)).2.1, false)) ∧
    (∀ (st : F1State) (now : Nat) (endpoint : String)
        (params : List (String × String)) (resp : UpstreamResponse)
        (entry : CacheEntry),
      dictGet (cache_key endpoint params) st.cache = some entry →
      cache_ttl ≤ now - entry.timestamp →
      (make_request st now endpoint params resp).2.2 = true) := by
  refine ⟨make_request_fresh_hit, ?_, ?_⟩
  · intro st t₁ t₂ endpoint params data resp h1 h2
    have hrun : make_request st t₁ endpoint params (.ok data)
        = (data,
           { st with
             cache := dictSet (cache_key endpoint params) ⟨data, t₁⟩ st.cache,
             consecutive_failures := 0 },
           true) := by
      simp [make_request, h1]
    refine ⟨by rw [hrun], ?_⟩
    rw [hrun]
    exact make_request_fresh_hit _ t₂ endpoint params resp ⟨data, t₁⟩
      (dictGet_dictSet_self _ _ _) h2
  · intro st now endpoint params resp entry h1 h2
    have hage : ¬ now - entry.timestamp < cache_ttl := not_lt.mpr h2
    cases resp <;> simp [make_request, h1, hage]

/-- Witness for C2 at concrete inputs: a fresh hit returns the entry with no
request, a miss-then-hit pair issues exactly one request, and a stale entry
issues a request. -/
theorem cache_single_request_within_ttl_witness :
    make_request ⟨[(cache_key "laps" [], ⟨[], 3⟩)], 0, 0⟩ 10 "laps" []
        UpstreamResponse.timeout
      = ([], ⟨[(cache_key "laps" [], ⟨[], 3⟩)], 0, 0⟩, false) ∧
    (make_request ⟨[], 0, 0⟩ 0 "laps" [] (.ok [])).2.2 = true ∧
    make_request (make_request ⟨[], 0, 0⟩ 0 "laps" [] (.ok [])).2.1 10 "laps" []
        UpstreamResponse.timeout
      = ([], (make_request ⟨[], 0, 0⟩ 0 "laps" [] (.ok [])).2.1, false) ∧
    (make_request ⟨[(cache_key "laps" [], ⟨[], 3⟩)], 0, 0⟩ 40 "laps" []
        UpstreamResponse.timeout).2.2 = true := by
  obtain ⟨h1, h2, h3⟩ := cache_single_request_within_ttl
  have hpair := h2 ⟨[], 0, 0⟩ 0 10 "laps" [] [] UpstreamResponse.timeout rfl
    (by decide)
  exact ⟨h1 _ 10 "laps" [] _ ⟨[], 3⟩ rfl (by decide), hpair.1, hpair.2,
    h3 _ 40 "laps" [] _ ⟨[], 3⟩ rfl (by decide)⟩

/-- C3: on an HTTP 429 the data handed back is exactly the cached value for
the key (or empty when absent), and — whenever the request is actually issued,
i.e. there is no fresh cache hit — the state afterwards has
`rate_limited_until = now + retryAfter` (default 60) and
`consecutive_failures` incremented by one. -/
theorem rate_limited_429_behavior (st : F1State) (now : Nat) (endpoint : String)
    (params : List (String × String)) (ra : Option Nat) :
    (make_request st now endpoint params (.rateLimited ra)).1
        = cachedData st.cache (cache_key endpoint params) ∧
    ((∀ entry : CacheEntry,
        dictGet (cache_key endpoint params) st.cache = some entry →
        cache_ttl ≤ now - entry.timestamp) →
      (make_request st now endpoint params
          (.rateLimited ra)).2.1.rate_limited_until = now + ra.getD 60 ∧
      (make_request st now endpoint params
          (.rateLimited ra)).2.1.consecutive_failures
        = st.consecutive_failures + 1) := by
  constructor
  · exact make_request_failure_data st now endpoint params (.rateLimited ra) rfl
  · intro hstale
    cases hget : dictGet (cache_key endpoint params) st.cache with
    | none => simp [make_request, hget]
    | some entry =>
      have hage : ¬ now - entry.timestamp < cache_ttl :=
        not_lt.mpr (hstale entry hget)
      simp [make_request, hget, hage]

/-- Witness for C3: a stale cached entry for the key plus a 429 carrying
`Retry-After: 5` at time 100 returns exactly the cached records and sets
`rate_limited_until = 105`, `consecutive_failures = 1`. -/
theorem rate_limited_429_behavior_witness :
    (make_request ⟨[(cache_key "position" [], ⟨[{ driver_number := some 44 }], 0⟩)], 0, 0⟩
        100 "position" [] (.rateLimited (some 5))).1
      = [{ driver_number := some 44 }] ∧
    (make_request ⟨[(cache_key "position" [], ⟨[{ driver_number := some 44 }], 0⟩)], 0, 0⟩
        100 "position" [] (.rateLimited (some 5))).2.1.rate_limited_until = 105 ∧
    (make_request ⟨[(cache_key "position" [], ⟨[{ driver_number := some 44 }], 0⟩)], 0, 0⟩
        100 "position" [] (.rateLimited (some 5))).2.1.consecutive_failures = 1 := by
  have h := rate_limited_429_behavior
    ⟨[(cache_key "position" [], ⟨[{ driver_number := some 44 }], 0⟩)], 0, 0⟩
    100 "position" [] (some 5)
  have hstale : ∀ entry : CacheEntry,
      dictGet (cache_key "position" [])
        (F1State.cache ⟨[(cache_key "position" [], ⟨[{ driver_number := some 44 }], 0⟩)], 0, 0⟩)
        = some entry →
      cache_ttl ≤ 100 - entry.timestamp := by
    intro entry he
    rw [show dictGet (cache_key "position" [])
        (F1State.cache ⟨[(cache_key "position" [], ⟨[{ driver_number := some 44 }], 0⟩)], 0, 0⟩)
        = some ⟨[{ driver_number := some 44 }], 0⟩ by simp [dictGet]] at he
    cases he
    decide
  exact ⟨h.1.trans rfl, (h.2 hstale).1, (h.2 hstale).2⟩

/-- C4 counterexample: the code does not clamp tyre age to a non-negative
value — a latest lap (5) earlier than the stint start (10) yields `-3`, not
the `0` the claim states. -/
theorem tyre_age_clamped_counterexample :
    calculate_tyre_age (some { lap_start := some 10, tyre_age_at_start := some 2 })
        (some { lap_number := some 5 }) = -3 ∧
    calculate_tyre_age (some { lap_start := some 10, tyre_age_at_start := some 2 })
        (some { lap_number := some 5 }) ≠ 0 := by
  decide

/-- C4 as amended: tyre age is
`currentLapNumber - stintStartLap + tyreAgeAtStintStart` with NO clamping
(missing fields default to 0, and a missing stint or lap yields 0); the
stint `(lap_start 10, tyre_age_at_start 2)` with latest lap 15 yields 7, and
a current lap earlier than `lap_start` yields a negative value. -/
theorem tyre_age_formula_no_clamp :
    (∀ stint lap : Rec,
      calculate_tyre_age (some stint) (some lap)
        = lap.lap_number.getD 0 - stint.lap_start.getD 0
            + stint.tyre_age_at_start.getD 0) ∧
    calculate_tyre_age (some { lap_start := some 10, tyre_age_at_start := some 2 })
        (some { lap_number := some 15 }) = 7 ∧
    calculate_tyre_age none none = 0 := by
  exact ⟨fun stint lap => rfl, by decide, rfl⟩

/-- C5 counterexample: a negative gap does not render the `"--"` sentinel (it
renders `"+-1.000"`), and a gap of at least 60 seconds renders with a leading
`"+"`, not as bare `M:SS.mmm`. -/
theorem formatting_counterexample :
    format_gap (some (-1000)) = "+-1.000" ∧
    format_gap (some (-1000)) ≠ "--" ∧
    format_gap (some 91234) = "+1:31.234" ∧
    format_gap (some 91234) ≠ "1:31.234" := by
  decide

/-- C5 as amended: lap times of 60 s or more render `M:SS.mmm`
(91.234 s ↦ `"1:31.234"`); missing, zero or negative lap and sector durations
render the sentinels `"--:--.---"` / `"---.---"`; positive sector times render
`SS.mmm`; missing or zero gaps render `"--"`; positive sub-minute gaps render
`+SS.mmm`; gaps of 60 s or more render `+M:SS.mmm`; negative gaps render a
`"+"`-prefixed signed value rather than the sentinel. -/
theorem formatting_amended :
    format_lap_time (some 91234) = "1:31.234" ∧
    (∀ m : Int, m ≤ 0 → format_lap_time (some m) = "--:--.---") ∧
    format_lap_time none = "--:--.---" ∧
    (∀ m : Int, m ≤ 0 → format_sector_time (some m) = "---.---") ∧
    format_sector_time none = "---.---" ∧
    format_sector_time (some 31234) = "31.234" ∧
    format_gap none = "--" ∧
    format_gap (some 0) = "--" ∧
    format_gap (some 1234) = "+1.234" ∧
    format_gap (some 91234) = "+1:31.234" ∧
    (∀ m : Int, m < 0 → format_gap (some m) = "+" ++ signed_ms m) := by
  refine ⟨by decide, ?_, by decide, ?_, by decide, by decide, by decide,
    by decide, by decide, by decide, ?_⟩
  · intro m hm
    simp [format_lap_time, hm]
  · intro m hm
    simp [format_sector_time, hm]
  · intro m hm
    have h0 : ¬ m = 0 := by omega
    have h60 : m < 60000 := by omega
    simp [format_gap, h0, h60]

/-- Witness for C5 as amended, at concrete negative inputs. -/
theorem formatting_amended_witness :
    format_lap_time (some (-5)) = "--:--.---" ∧
    format_sector_time (some (-5)) = "---.---" ∧
    format_gap (some (-1000)) = "+" ++ signed_ms (-1000) := by
  obtain ⟨-, h2, -, h4, -, -, -, -, -, -, h11⟩ := formatting_amended
  exact ⟨h2 (-5) (by decide), h4 (-5) (by decide), h11 (-1000) (by decide)⟩

/-- The selection `next((r for r in sorted(records, key, reverse=True) if
r.driver_number == dn), None)` picks, among the records of driver `dn`, the
first (in source order) record of maximal key. -/
theorem latestBy_eq_argmaxFirst {κ : Type} [LinearOrder κ] (k : Rec → κ)
    (records : List Rec) (dn : Option Int) :
    latestBy k records dn
      = argmaxFirst k (records.filter (fun r => r.driver_number == dn)) :=
  find?_sortDesc k (fun r => r.driver_number == dn) records

/-- C6: the aggregator's per-driver selection takes the record of maximum
key — `date` for positions/intervals, `lap_number` for laps, `stint_number`
for stints — with ties broken by the stable source order (first occurrence
among the maximal ones); the snapshot fields are read off those records.  In
particular two position records for driver 44 with dates T1 < T2 give the
snapshot the T2 record's `position`. -/
theorem latest_record_selection :
    (∀ {κ : Type} [LinearOrder κ] (k : Rec → κ) (records : List Rec)
        (dn : Option Int),
      latestBy k records dn
        = argmaxFirst k (records.filter (fun r => r.driver_number == dn))) ∧
    (∀ (driver : Rec) (positions laps intervals stints pit_data : List Rec),
      (mkDriverTiming driver positions laps intervals stints pit_data).position
        = (argmaxFirst dateKey (positions.filter
            (fun r => r.driver_number == driver.driver_number))).bind Rec.position ∧
      (mkDriverTiming driver positions laps intervals stints pit_data).interval
        = (match argmaxFirst dateKey (intervals.filter
            (fun r => r.driver_number == driver.driver_number)) with
           | some i => format_gap i.interval
           | none => "--") ∧
      (mkDriverTiming driver positions laps intervals stints pit_data).lastLap
        = (match argmaxFirst lapNumberKey (laps.filter
            (fun r => r.driver_number == driver.driver_number)) with
           | some l => l.lap_number
           | none => some 0) ∧
      (mkDriverTiming driver positions laps intervals stints pit_data).tyreCompound
        = (match argmaxFirst stintNumberKey (stints.filter
            (fun r => r.driver_number == driver.driver_number)) with
           | some s => s.compound
           | none => some "UNKNOWN")) ∧
    (mkDriverTiming { driver_number := some 44 }
        [{ driver_number := some 44, date := some "T1", position := some 3 },
         { driver_number := some 44, date := some "T2", position := some 1 }]
        [] [] [] []).position = some 1 := by
  refine ⟨fun k records dn => latestBy_eq_argmaxFirst k records dn, ?_, ?_⟩
  · intro driver positions laps intervals stints pit_data
    refine ⟨?_, ?_, ?_, ?_⟩ <;>
      simp only [mkDriverTiming, latestBy_eq_argmaxFirst]
  · have hlt : ("T1" : String) < "T2" := by
      rw [String.lt_iff_toList_lt]
      decide
    simp [mkDriverTiming, latestBy, sortDesc, insertDesc, dateKey, hlt,
      List.find?]

/-- C7: with an empty drivers record set, aggregation short-circuits to the
explicit `'No drivers found'` error with an empty snapshot list and no
session key — not an empty-but-successful result. -/
theorem no_drivers_short_circuit (session_key : String)
    (positions laps intervals stints pit_data : List Rec) :
    get_live_timing_data session_key [] positions laps intervals stints pit_data
      = { driverTimings := [], error := some "No drivers found",
          sessionKey := none } ∧
    (get_live_timing_data session_key [] positions laps intervals stints
        pit_data).error ≠ none := by
  refine ⟨by simp [get_live_timing_data], by simp [get_live_timing_data]⟩

/-! Helper lemmas about `broadcast`. -/

theorem send_safe_active (st : WSState) (fails : WS → Bool) (ws : WS) :
    (send_safe st fails ws).active_connections
      = if fails ws then st.active_connections.erase ws
        else st.active_connections := by
  by_cases h : fails ws
  · simp only [send_safe, if_pos h, disconnect]
    by_cases hm : ws ∈ st.active_connections
    · simp [hm]
    · simp [hm, List.erase_of_not_mem hm]
  · simp [send_safe, h]

theorem broadcast_fold_attempted (fails : WS → Bool) :
    ∀ (xs : List WS) (s : WSState) (att del : List WS),
      (xs.foldl (fun acc ws =>
          (send_safe acc.1 fails ws, acc.2.1 ++ [ws],
           acc.2.2 ++ if fails ws then [] else [ws])) (s, att, del)).2.1
        = att ++ xs := by
  intro xs
  induction xs with
  | nil => intro s att del; simp
  | cons x xs ih =>
    intro s att del
    simp only [List.foldl_cons]
    rw [ih]
    simp

theorem broadcast_fold_delivered (fails : WS → Bool) :
    ∀ (xs : List WS) (s : WSState) (att del : List WS),
      (xs.foldl (fun acc ws =>
          (send_safe acc.1 fails ws, acc.2.1 ++ [ws],
           acc.2.2 ++ if fails ws then [] else [ws])) (s, att, del)).2.2
        = del ++ xs.filter (fun ws => !fails ws) := by
  intro xs
  induction xs with
  | nil => intro s att del; simp
  | cons x xs ih =>
    intro s att del
    simp only [List.foldl_cons]
    rw [ih]
    cases hfx : fails x <;> simp [List.filter_cons, hfx]

theorem broadcast_fold_active (fails : WS → Bool) :
    ∀ (xs : List WS) (s : WSState) (att del : List WS),
      ((xs.foldl (fun acc ws =>
          (send_safe acc.1 fails ws, acc.2.1 ++ [ws],
           acc.2.2 ++ if fails ws then [] else [ws])) (s, att, del)).1).active_connections
        = xs.foldl (fun A ws => if fails ws then A.erase ws else A)
            s.active_connections := by
  intro xs
  induction xs with
  | nil => intro s att del; simp
  | cons x xs ih =>
    intro s att del
    simp only [List.foldl_cons]
    rw [ih, send_safe_active]

theorem foldl_erase_cons_not_mem (fails : WS → Bool) :
    ∀ (xs : List WS) (x : WS) (A : List WS), x ∉ xs →
      xs.foldl (fun A ws => if fails ws then A.erase ws else A) (x :: A)
        = x :: xs.foldl (fun A ws => if fails ws then A.erase ws else A) A := by
  intro xs
  induction xs with
  | nil => intro x A _; simp
  | cons y ys ih =>
    intro x A h
    rw [List.mem_cons] at h
    push_neg at h
    simp only [List.foldl_cons]
    cases hfy : fails y with
    | true =>
      rw [if_pos rfl, if_pos rfl, List.erase_cons_tail]
      · exact ih x _ h.2
      · simpa using h.1
    | false =>
      rw [if_neg (by simp), if_neg (by simp)]
      exact ih x _ h.2

theorem foldl_erase_self (fails : WS → Bool) :
    ∀ (l : List WS), l.Nodup →
      l.foldl (fun A ws => if fails ws then A.erase ws else A) l
        = l.filter (fun ws => !fails ws) := by
  intro l
  induction l with
  | nil => intro _; simp
  | cons x xs ih =>
    intro hnd
    rw [List.nodup_cons] at hnd
    simp only [List.foldl_cons]
    cases hfx : fails x with
    | true =>
      rw [if_pos rfl, List.erase_cons_head]
      rw [ih hnd.2]
      simp [List.filter_cons, hfx]
    | false =>
      rw [if_neg (by simp)]
      rw [foldl_erase_cons_not_mem fails xs x xs hnd.1, ih hnd.2]
      simp [List.filter_cons, hfx]

/-- C8: `broadcast` attempts a send to every registered connection (in
registry order), delivers to exactly those whose send does not fail — one
connection's failure never blocks another's delivery — and every failing
connection is removed from the registry by the end of the broadcast. -/
theorem broadcast_isolation (st : WSState) (fails : WS → Bool)
    (hnd : st.active_connections.Nodup) :
    (broadcast st fails).2.1 = st.active_connections ∧
    (broadcast st fails).2.2
      = st.active_connections.filter (fun ws => !fails ws) ∧
    (broadcast st fails).1.active_connections
      = st.active_connections.filter (fun ws => !fails ws) := by
  by_cases hempty : st.active_connections.isEmpty
  · have hnil : st.active_connections = [] := by
      simpa using hempty
    simp [broadcast, hempty, hnil]
  · unfold broadcast
    rw [if_neg hempty]
    refine ⟨?_, ?_, ?_⟩
    · rw [broadcast_fold_attempted]
      simp
    · rw [broadcast_fold_delivered]
      simp
    · rw [broadcast_fold_active, foldl_erase_self fails _ hnd]

/-- Witness for C8: with registered connections 1, 2, 3 where only
connection 2's send raises, the message is delivered to 1 and 3 and
connection 2 is unregistered afterward. -/
theorem broadcast_isolation_witness :
    (broadcast ⟨[1, 2, 3], [(1, ⟨0, []⟩), (2, ⟨0, []⟩), (3, ⟨0, []⟩)]⟩
        (fun ws => ws == 2)).2.1 = [1, 2, 3] ∧
    (broadcast ⟨[1, 2, 3], [(1, ⟨0, []⟩), (2, ⟨0, []⟩), (3, ⟨0, []⟩)]⟩
        (fun ws => ws == 2)).2.2 = [1, 3] ∧
    (broadcast ⟨[1, 2, 3], [(1, ⟨0, []⟩), (2, ⟨0, []⟩), (3, ⟨0, []⟩)]⟩
        (fun ws => ws == 2)).1.active_connections = [1, 3] := by
  have h := broadcast_isolation
    ⟨[1, 2, 3], [(1, ⟨0, []⟩), (2, ⟨0, []⟩), (3, ⟨0, []⟩)]⟩
    (fun ws => ws == 2) (by decide)
  exact ⟨h.1, h.2.1.trans (by decide), h.2.2.trans (by decide)⟩

/-- C9: an iteration of the streaming loop with zero registered connections
issues no fetch calls at all and just sleeps the 30-second idle interval;
hence over any window of iterations all with zero registered connections,
zero upstream requests are issued. -/
theorem no_subscribers_no_requests :
    (∀ i : LoopInput, i.manager.active_connections = [] →
      (loop_iteration i).1 = [] ∧ (loop_iteration i).2.2 = 30) ∧
    (∀ inputs : List LoopInput,
      (∀ i ∈ inputs, i.manager.active_connections = []) →
      run_loop inputs = []) := by
  have hsingle : ∀ i : LoopInput, i.manager.active_connections = [] →
      (loop_iteration i).1 = [] ∧ (loop_iteration i).2.2 = 30 := by
    intro i h
    have hc : has_connections i.manager = false := by
      simp [has_connections, h]
    simp [loop_iteration, hc]
  refine ⟨hsingle, ?_⟩
  intro inputs
  induction inputs with
  | nil => intro _; simp [run_loop]
  | cons i rest ih =>
    intro hall
    have h1 := hsingle i (hall i (List.mem_cons_self i rest))
    have h2 := ih (fun j hj => hall j (List.mem_cons_of_mem i hj))
    simp only [run_loop, List.map_cons, List.flatten_cons] at h2 ⊢
    rw [h1.1, h2, List.nil_append]

/-- Witness for C9: the default (empty-manager) loop input issues no fetch
calls, and a two-iteration idle window issues none either. -/
theorem no_subscribers_no_requests_witness :
    (loop_iteration {}).1 = [] ∧ (loop_iteration {}).2.2 = 30 ∧
    run_loop [{}, {}] = [] := by
  have h := no_subscribers_no_requests
  have h1 := h.1 {} rfl
  refine ⟨h1.1, h1.2, h.2 [{}, {}] ?_⟩
  intro i hi
  rcases List.mem_cons.mp hi with rfl | hi2
  · rfl
  · rcases List.mem_cons.mp hi2 with rfl | hi3
    · rfl
    · cases hi3

/-! Helper lemmas for the registry invariant. -/

theorem wsinv_connect (st : WSState) (ws : WS) (now : Nat) (h : WSInv st)
    (hnew : ws ∉ st.active_connections) : WSInv (connect st ws now) := by
  obtain ⟨hiff, hndA, hndK⟩ := h
  have hkey : ws ∉ keys st.connection_data := fun hmem =>
    hnew ((hiff ws).mpr ((mem_keys_iff_isSome ws _).mp hmem))
  refine ⟨?_, ?_, ?_⟩
  · intro w
    simp only [connect]
    rw [List.mem_append, List.mem_singleton]
    by_cases hw : w = ws
    · subst hw
      simp [dictGet_dictSet_self]
    · rw [dictGet_dictSet_ne hw]
      constructor
      · rintro (h1 | rfl)
        · exact (hiff w).mp h1
        · exact absurd rfl hw
      · intro hs
        exact Or.inl ((hiff w).mpr hs)
  · exact List.Nodup.append hndA (List.nodup_singleton ws)
      (by intro a ha hb; rw [List.mem_singleton] at hb; subst hb; exact hnew ha)
  · simp only [connect]
    rw [keys_dictSet_not_mem _ hkey]
    exact List.Nodup.append hndK (List.nodup_singleton ws)
      (by intro a ha hb; rw [List.mem_singleton] at hb; subst hb; exact hkey ha)

theorem disconnect_unregistered_noop (st : WSState) (ws : WS) (h : WSInv st)
    (hnm : ws ∉ st.active_connections) : disconnect st ws = st := by
  obtain ⟨hiff, -, -⟩ := h
  have hkey : ¬ (dictGet ws st.connection_data).isSome = true := fun hs =>
    hnm ((hiff ws).mpr hs)
  unfold disconnect
  rw [if_neg hnm, if_neg hkey]

theorem wsinv_disconnect (st : WSState) (ws : WS) (h : WSInv st) :
    WSInv (disconnect st ws) := by
  by_cases hm : ws ∈ st.active_connections
  · obtain ⟨hiff, hndA, hndK⟩ := h
    have hs : (dictGet ws st.connection_data).isSome = true := (hiff ws).mp hm
    unfold disconnect
    rw [if_pos hm, if_pos hs]
    refine ⟨?_, hndA.erase ws, ?_⟩
    · intro w
      simp only []
      rw [hndA.mem_erase_iff]
      by_cases hw : w = ws
      · subst hw
        simp [dictGet_delKey_self _ _ hndK]
      · rw [dictGet_delKey_ne hw]
        simp [hw, hiff w]
    · simp only []
      rw [keys_delKey]
      exact hndK.erase ws
  · rw [disconnect_unregistered_noop st ws h hm]
    exact h

theorem wsinv_send_safe (st : WSState) (fails : WS → Bool) (ws : WS)
    (h : WSInv st) : WSInv (send_safe st fails ws) := by
  unfold send_safe
  by_cases hf : fails ws
  · rw [if_pos hf]
    exact wsinv_disconnect st ws h
  · rw [if_neg hf]
    exact h

theorem wsinv_update_subscription (st : WSState) (ws : WS)
    (data_types : List String) (action : String) (h : WSInv st) :
    WSInv (update_subscription st ws data_types action) := by
  obtain ⟨hiff, hndA, hndK⟩ := h
  cases hget : dictGet ws st.connection_data with
  | none =>
    simp only [update_subscription, hget]
    exact ⟨hiff, hndA, hndK⟩
  | some info =>
    have hkey : ws ∈ keys st.connection_data :=
      (mem_keys_iff_isSome ws _).mpr (by simp [hget])
    simp only [update_subscription, hget]
    refine ⟨?_, hndA, ?_⟩
    · intro w
      simp only []
      by_cases hw : w = ws
      · subst hw
        simp only [dictGet_dictSet_self, Option.isSome_some]
        exact iff_of_true ((hiff w).mpr (by simp [hget])) (by trivial)
      · rw [dictGet_dictSet_ne hw]
        exact hiff w
    · simp only []
      rw [keys_dictSet_mem _ hkey]
      exact hndK

theorem count_eq_data_length (st : WSState) (h : WSInv st) :
    connection_count st = st.connection_data.length := by
  obtain ⟨hiff, hndA, hndK⟩ := h
  have hmem : ∀ w, w ∈ st.active_connections ↔ w ∈ keys st.connection_data := by
    intro w
    rw [hiff w, mem_keys_iff_isSome]
  have h1 : st.active_connections.toFinset = (keys st.connection_data).toFinset := by
    ext a
    simp only [List.mem_toFinset]
    exact hmem a
  calc connection_count st
      = st.active_connections.length := rfl
    _ = st.active_connections.toFinset.card := (List.toFinset_card_of_nodup hndA).symm
    _ = (keys st.connection_data).toFinset.card := by rw [h1]
    _ = (keys st.connection_data).length := List.toFinset_card_of_nodup hndK
    _ = st.connection_data.length := by simp [keys]

/-- C10: every `WebSocketManager` operation preserves the registry invariant
— `active_connections` and the keys of `connection_data` have the same
members, with no duplicates on either side (`connect` assumes the accepted
socket is a fresh object, as FastAPI guarantees); `disconnect` on an
unregistered socket is a no-op; and under the invariant `connection_count`
equals the number of connections holding per-connection data. -/
theorem registry_invariant (st : WSState) (ws : WS) (now : Nat)
    (data_types : List String) (action : String) (fails : WS → Bool) :
    (WSInv st → ws ∉ st.active_connections → WSInv (connect st ws now)) ∧
    (WSInv st → WSInv (disconnect st ws)) ∧
    (WSInv st → WSInv (send_safe st fails ws)) ∧
    (WSInv st → WSInv (update_subscription st ws data_types action)) ∧
    (WSInv st → ws ∉ st.active_connections → disconnect st ws = st) ∧
    (WSInv st → connection_count st = st.connection_data.length) :=
  ⟨fun h hnew => wsinv_connect st ws now h hnew,
   fun h => wsinv_disconnect st ws h,
   fun h => wsinv_send_safe st fails ws h,
   fun h => wsinv_update_subscription st ws data_types action h,
   fun h hnm => disconnect_unregistered_noop st ws h hnm,
   fun h => count_eq_data_length st h⟩

/-- Witness for C10: starting from the empty registry, connecting socket 5
preserves the invariant, disconnecting the unknown socket 5 is a no-op, and
the count matches the data table size. -/
theorem registry_invariant_witness :
    WSInv (connect ⟨[], []⟩ 5 0) ∧
    disconnect ⟨[], []⟩ 5 = ⟨[], []⟩ ∧
    connection_count ⟨[], []⟩ = ([] : List (WS × ConnData)).length := by
  have hinv : WSInv ⟨[], []⟩ := by
    refine ⟨?_, by simp, by simp [keys]⟩
    intro w
    simp [dictGet]
  have h := registry_invariant ⟨[], []⟩ 5 0 [] "subscribe" (fun _ => false)
  exact ⟨h.1 hinv (by simp), h.2.2.2.2.1 hinv (by simp), h.2.2.2.2.2 hinv⟩

end F1
